import Mathlib

/-!
Verification of `tools/rw-heatmaps/plot_data.py`: a shallow embedding of the
CSV loader, the `CenteredNorm` color normalizer, and the data-level behaviour
of the plotting pipeline, together with proofs of the claims of the spec.

Modelling conventions:
* Python floats are modelled as rationals (`ℚ`); IEEE infinities and NaN, which
  arise only in the delta (percent-change) computation via division by zero,
  are modelled by the extended type `EFloat`.
* A CSV file (after `pd.read_csv` tokenization, which is assumed to succeed)
  is a header row plus a list of rows of string cells.
* `sys.exit(1)` and exceptions are modelled with `Except`; the image file is
  written only on the `Except.ok` path of the whole pipeline.
-/

namespace PlotData

/-! ## String primitives: the Python split-on-colon, float and int functions -/

/-- Python `str.find(pat) != -1` for a list-of-chars pattern: does `pat`
occur as a contiguous substring of `l`?  `isPrefixList pat l` checks a prefix. -/
def isPrefixList : List Char → List Char → Bool
  | [], _ => true
  | _ :: _, [] => false
  | p :: ps, c :: cs => p == c && isPrefixList ps cs

/-- Substring occurrence test over char lists. -/
def containsSub : List Char → List Char → Bool
  | [], pat => isPrefixList pat []
  | c :: t, pat => isPrefixList pat (c :: t) || containsSub t pat

/-- Python split on colon over the char list of a string: always returns at least
one component; `n` colons give `n+1` components. -/
def splitColon : List Char → List (List Char)
  | [] => [[]]
  | c :: t =>
    let r := splitColon t
    if c = ':' then [] :: r
    else
      match r with
      | h :: t2 => (c :: h) :: t2
      | [] => [[c]]

/-- Numeric value of a digit list, most significant first. -/
def digitsVal (l : List Char) : Nat :=
  l.foldl (fun a c => a * 10 + (c.toNat - '0'.toNat)) 0

/-- Strip leading and trailing whitespace (Python `float`/`int` accept it). -/
def stripWs (l : List Char) : List Char :=
  ((l.dropWhile Char.isWhitespace).reverse.dropWhile Char.isWhitespace).reverse

/-- Consume an optional sign; `true` means negative. -/
def parseSign : List Char → Bool × List Char
  | '+' :: t => (false, t)
  | '-' :: t => (true, t)
  | l => (false, l)

/-- Value of `intPart.fracPart` as a rational. -/
def decVal (intPart fracPart : List Char) : ℚ :=
  (digitsVal (intPart ++ fracPart) : ℚ) / ((10 : ℚ) ^ fracPart.length)

/-- Apply a decimal exponent (`esign = true` means a negative exponent). -/
def applyExp (q : ℚ) (esign : Bool) (e : Nat) : ℚ :=
  if esign then q / (10 : ℚ) ^ e else q * (10 : ℚ) ^ e

/-- Python `float(s)` on finite decimal literals:
`[ws][sign](digits[.digits] | .digits)[(e|E)[sign]digits][ws]`.
The `inf`/`nan` literals and digit-group underscores are outside the rational
model and rejected; no input of this tool uses them. -/
def parseFloatChars (l0 : List Char) : Option ℚ :=
  let l1 := stripWs l0
  let s := parseSign l1
  let ipr := s.2.span Char.isDigit
  let fpr :=
    match ipr.2 with
    | '.' :: t => t.span Char.isDigit
    | _ => ([], ipr.2)
  if ipr.1.length = 0 ∧ fpr.1.length = 0 then none
  else
    let base := decVal ipr.1 fpr.1
    match fpr.2 with
    | [] => some (if s.1 then -base else base)
    | 'e' :: t =>
      let es := parseSign t
      let edr := es.2.span Char.isDigit
      if edr.1.length = 0 ∨ edr.2 ≠ [] then none
      else some (if s.1 then -applyExp base es.1 (digitsVal edr.1)
                 else applyExp base es.1 (digitsVal edr.1))
    | 'E' :: t =>
      let es := parseSign t
      let edr := es.2.span Char.isDigit
      if edr.1.length = 0 ∨ edr.2 ≠ [] then none
      else some (if s.1 then -applyExp base es.1 (digitsVal edr.1)
                 else applyExp base es.1 (digitsVal edr.1))
    | _ => none

/-- Truncation toward zero, as in a numpy float→int cast / Python `int(float)`. -/
def truncInt (q : ℚ) : ℤ :=
  if 0 ≤ q then q.floor else -((-q).floor)

/-- `astype(int)` on a CSV column cell: numerically parseable cells (pandas
would have inferred a numeric dtype, or `int()` parses the string) are
truncated toward zero; anything else raises. -/
def parseIntChars (l0 : List Char) : Option ℤ :=
  (parseFloatChars l0).map truncInt

/-! ## Extended floats for the delta computation

numpy float arithmetic on `(df1 - df0) / df0 * 100` can divide by zero,
producing `inf`/`-inf`/`nan`.  `EFloat` adds those points to `ℚ`
(signed zero is not distinguished; the loader never produces `-0.0`). -/

inductive EFloat where
  | nan : EFloat
  | pinf : EFloat
  | ninf : EFloat
  | fin : ℚ → EFloat
deriving Repr, DecidableEq

/-- IEEE subtraction on `EFloat`. -/
def efSub : EFloat → EFloat → EFloat
  | .fin a, .fin b => .fin (a - b)
  | .nan, _ => .nan
  | _, .nan => .nan
  | .pinf, .pinf => .nan
  | .pinf, _ => .pinf
  | .ninf, .ninf => .nan
  | .ninf, _ => .ninf
  | .fin _, .pinf => .ninf
  | .fin _, .ninf => .pinf

/-- IEEE division on `EFloat` (zero denominators treated as `+0.0`). -/
def efDiv : EFloat → EFloat → EFloat
  | .nan, _ => .nan
  | _, .nan => .nan
  | .fin a, .fin b =>
    if b = 0 then
      if a = 0 then .nan else if 0 < a then .pinf else .ninf
    else .fin (a / b)
  | .fin _, .pinf => .fin 0
  | .fin _, .ninf => .fin 0
  | .pinf, .fin b => if b < 0 then .ninf else .pinf
  | .ninf, .fin b => if b < 0 then .pinf else .ninf
  | .pinf, .pinf => .nan
  | .pinf, .ninf => .nan
  | .ninf, .pinf => .nan
  | .ninf, .ninf => .nan

/-- IEEE multiplication on `EFloat`. -/
def efMul : EFloat → EFloat → EFloat
  | .nan, _ => .nan
  | _, .nan => .nan
  | .fin a, .fin b => .fin (a * b)
  | .pinf, .fin b => if b = 0 then .nan else if 0 < b then .pinf else .ninf
  | .ninf, .fin b => if b = 0 then .nan else if 0 < b then .ninf else .pinf
  | .fin a, .pinf => if a = 0 then .nan else if 0 < a then .pinf else .ninf
  | .fin a, .ninf => if a = 0 then .nan else if 0 < a then .ninf else .pinf
  | .pinf, .pinf => .pinf
  | .pinf, .ninf => .ninf
  | .ninf, .pinf => .ninf
  | .ninf, .ninf => .pinf

/-! ## CSV files and the data model of the loader -/

/-- A CSV file after `pd.read_csv` tokenization: a header (column names) and
rows of string cells. -/
structure CsvFile where
  header : List String
  rows : List (List String)
deriving Repr, DecidableEq

/-- One row of a Processed Dataset: `new_df` after the loader finishes. -/
structure DataRow where
  ratio : ℚ
  conn_size : ℤ
  value_size : ℤ
  read : ℚ
  write : ℚ
deriving Repr, DecidableEq

/-- The per-file result of the loader: the dict holding `new_df` and `param_str`. -/
structure Dataset where
  dataframe : List DataRow
  param : String
deriving Repr, DecidableEq

/-- Index of a named column (`df[name]`); `none` models a `KeyError`. -/
def colIdx (df : CsvFile) (name : String) : Option Nat :=
  df.header.findIdx? (· == name)

/-- The per-row comparison of the type column with `t`. -/
def rowIsType (ti : Nat) (t : String) (r : List String) : Bool :=
  r[ti]? == some t

/-- Rows selected by filtering the type column for PARAM (empty if `type` is absent,
though the loader raises on a missing `type` column before using this). -/
def paramRowsOf (df : CsvFile) : List (List String) :=
  match colIdx df "type" with
  | some ti => df.rows.filter (rowIsType ti "PARAM")
  | none => []

/-- Rows selected by filtering the type column for DATA. -/
def dataRowsOf (df : CsvFile) : List (List String) :=
  match colIdx df "type" with
  | some ti => df.rows.filter (rowIsType ti "DATA")
  | none => []

/-- Indices of the columns whose name contains the substring `iter`
(the list comprehension filtering `df.columns` on find of iter; the loader then accesses
columns by name, which coincides with access by index for distinct names). -/
def iterIdxs (df : CsvFile) : List Nat :=
  (List.range df.header.length).filter
    (fun j => containsSub (df.header.getD j "").data ['i', 't', 'e', 'r'])

/-! ## Except plumbing -/

/-- Lift an `Option` into `Except`, raising `msg` on `none`. -/
def exE (o : Option α) (msg : String) : Except String α :=
  match o with
  | some a => .ok a
  | none => .error msg

/-- Sequential traversal in `Except`: the first failing element aborts, as a
Python exception aborts a list comprehension / `.apply`. -/
def mapE (f : α → Except String β) : List α → Except String (List β)
  | [] => .ok []
  | a :: as =>
    match f a with
    | .error e => .error e
    | .ok b =>
      match mapE f as with
      | .error e => .error e
      | .ok bs => .ok (b :: bs)

/-- Cell of a row at a column index.  A missing cell is a pandas `NaN`, which
every downstream use (`.str.split`, `astype`, string formatting of `iloc[0]`)
turns into a raised error, so it is modelled as an error here. -/
def cellE (r : List String) (i : Nat) : Except String String :=
  exE r[i]? "NaN cell"

/-! ## The loader (`load_data_files`) -/

/-- `param_str` computation: the `comment` of the first `PARAM` row, or `""`
when there is none (lines 47–50 of `plot_data.py`). -/
def getParamStr (df : CsvFile) : Except String String :=
  match paramRowsOf df with
  | [] => .ok ""
  | r :: _ => do
    let ci ← exE (colIdx df "comment") "KeyError: comment"
    cellE r ci

/-- Component `k` of a split iteration cell, parsed as a float
(`lambda x: float(x[k])`): a missing component is an `IndexError`, an
unparseable one a `ValueError`. -/
def parseComp (k : Nat) (parts : List (List Char)) : Except String ℚ :=
  match parts[k]? with
  | none => .error "IndexError"
  | some cs => exE (parseFloatChars cs) "ValueError"

/-- Element-wise Series addition. -/
def seriesAdd (a b : List ℚ) : List ℚ := List.zipWith (· + ·) a b

/-- Python `sum(series_list)` starting from scalar `0` broadcast over `n`
rows. -/
def seriesSum (n : Nat) (cols : List (List ℚ)) : List ℚ :=
  cols.foldl seriesAdd (List.replicate n 0)

/-- `sum(dfs) / len(dfs)`: `ZeroDivisionError` when there are no iteration
columns, otherwise the element-wise mean across the columns. -/
def seriesAvg (n : Nat) (cols : List (List ℚ)) : Except String (List ℚ) :=
  if cols.length = 0 then .error "ZeroDivisionError"
  else .ok ((seriesSum n cols).map (· / (cols.length : ℚ)))

/-- Zip the five result columns into rows of `new_df`. -/
def buildRows : List ℚ → List ℤ → List ℤ → List ℚ → List ℚ → List DataRow
  | r :: rs, c :: cs, v :: vs, a :: as, w :: ws =>
    ⟨r, c, v, a, w⟩ :: buildRows rs cs vs as ws
  | _, _, _, _, _ => []

/-- Split one iteration cell of one row (the str.split on colon of the cell). -/
def splitCell (j : Nat) (r : List String) : Except String (List (List Char)) := do
  let cell ← cellE r j
  pure (splitColon cell.data)

/-- `astype(float)` of the cell at column `i` of row `r`. -/
def cellFloat (i : Nat) (r : List String) : Except String ℚ := do
  let s ← cellE r i
  exE (parseFloatChars s.data) "ValueError"

/-- `astype(int)` of the cell at column `i` of row `r`. -/
def cellInt (i : Nat) (r : List String) : Except String ℤ := do
  let s ← cellE r i
  exE (parseIntChars s.data) "ValueError"

/-- Body of the per-file loop of `load_data_files` (lines 46–69): any raised
exception is an `Except.error`, which the caller converts into `sys.exit(1)`. -/
def loadOne (df : CsvFile) : Except String Dataset := do
  let _ ← exE (colIdx df "type") "KeyError: type"
  let param_str ← getParamStr df
  let ri ← exE (colIdx df "ratio") "KeyError: ratio"
  let ci ← exE (colIdx df "conn_size") "KeyError: conn_size"
  let vi ← exE (colIdx df "value_size") "KeyError: value_size"
  let tmp ← mapE (fun j => mapE (splitCell j) (dataRowsOf df)) (iterIdxs df)
  let read_df ← mapE (mapE (parseComp 0)) tmp
  let read_avg ← seriesAvg (dataRowsOf df).length read_df
  let write_df ← mapE (mapE (parseComp 1)) tmp
  let write_avg ← seriesAvg (dataRowsOf df).length write_df
  let ratios ← mapE (cellFloat ri) (dataRowsOf df)
  let conns ← mapE (cellInt ci) (dataRowsOf df)
  let vals ← mapE (cellInt vi) (dataRowsOf df)
  pure { dataframe := buildRows ratios conns vals read_avg write_avg,
         param := param_str }

/-- One positional argument of `load_data_files`: Python `None` (second file
not supplied), a path whose file is missing, or a readable file. -/
inductive FileArg where
  | absent : FileArg
  | missing : FileArg
  | present : CsvFile → FileArg
deriving Repr, DecidableEq

/-- First loop of `load_data_files` (lines 36–43): read each supplied file;
a `FileNotFoundError` is logged and the process exits with code 1. -/
def readStage : List FileArg → Except Nat (List CsvFile)
  | [] => .ok []
  | .absent :: rest => readStage rest
  | .missing :: _ => .error 1
  | .present f :: rest =>
    match readStage rest with
    | .error c => .error c
    | .ok fs => .ok (f :: fs)

/-- `load_data_files`: the error value is the process exit code (always 1). -/
def load_data_files (args : List FileArg) : Except Nat (List Dataset) :=
  match readStage args with
  | .error c => .error c
  | .ok files =>
    match mapE loadOne files with
    | .error _ => .error 1
    | .ok res => .ok res

/-! ## `CenteredNorm` (copied in the source from matplotlib) -/

/-- State of a `CenteredNorm` object.  `vmin`/`vmax` start as `None` and the
`halfrange` setter in this copied version does not populate them; they are
filled in by `_set_vmin_vmax` from `autoscale`, the `vcenter` setter, or
`__call__`. -/
structure CenteredNorm where
  vcenter : ℚ
  halfrange : Option ℚ
  vmin : Option ℚ
  vmax : Option ℚ
  clip : Bool
deriving Repr, DecidableEq

namespace CenteredNorm

/-- `_set_vmin_vmax`: `vmax = vcenter + halfrange`, `vmin = vcenter - halfrange`.
Only ever called with `halfrange` set; the impossible `none` branch leaves the
state unchanged. -/
def setVminVmax (n : CenteredNorm) : CenteredNorm :=
  match n.halfrange with
  | some h => { n with vmax := some (n.vcenter + h), vmin := some (n.vcenter - h) }
  | none => n

/-- The `halfrange` property setter: `None` clears everything, a number is
stored as its absolute value (and `vmin`/`vmax` are NOT set here — this copied
version omits the `_set_vmin_vmax()` call). -/
def setHalfrange (n : CenteredNorm) (halfrange : Option ℚ) : CenteredNorm :=
  match halfrange with
  | none => { n with halfrange := none, vmin := none, vmax := none }
  | some h => { n with halfrange := some |h| }

/-- `__init__(vcenter=0, halfrange=None, clip=False)`. -/
def init (vcenter : ℚ) (halfrange : Option ℚ) (clip : Bool) :
    CenteredNorm :=
  setHalfrange { vcenter := vcenter, halfrange := none, vmin := none,
                 vmax := none, clip := clip } halfrange

/-- `autoscale(A)`: `halfrange = max(vcenter - A.min(), A.max() - vcenter)`,
then `_set_vmin_vmax()`.  numpy raises on an empty array; that unreachable
branch leaves the state unchanged. -/
def autoscale (n : CenteredNorm) (A : List ℚ) : CenteredNorm :=
  match A.min?, A.max? with
  | some mn, some mx =>
    setVminVmax { n with halfrange := some (max (n.vcenter - mn) (mx - n.vcenter)) }
  | _, _ => n

/-- `autoscale_None(A)`: autoscale only when `halfrange` is unset and the data
is non-empty. -/
def autoscaleNone (n : CenteredNorm) (A : List ℚ) : CenteredNorm :=
  match n.halfrange with
  | none => if A.length ≠ 0 then autoscale n A else n
  | some _ => n

/-- The `vcenter` property setter: store the new center and, when `vmax` is
already set, recompute `halfrange` from the existing `vmin`/`vmax` (treated as
data bounds) and refresh `vmin`/`vmax`. -/
def setVcenter (n : CenteredNorm) (c : ℚ) : CenteredNorm :=
  let n1 : CenteredNorm := { n with vcenter := c }
  match n1.vmax, n1.vmin with
  | some mx, some mn =>
    setVminVmax { n1 with halfrange := some (max (c - mn) (mx - c)) }
  | _, _ => n1

/-- Modelled from the spec: the matplotlib base class `Normalize.__call__`
(not part of this repository) maps `v` to `(v - vmin) / (vmax - vmin)`,
returning 0 when `vmin == vmax`, raising when `vmin > vmax`, and first
clamping `v` into `[vmin, vmax]` when clipping is requested. -/
def normalizeValue (vmin vmax : ℚ) (clip : Bool) (v : ℚ) : Option ℚ :=
  if vmin = vmax then some 0
  else if vmax < vmin then none
  else
    let v2 := if clip then min (max v vmin) vmax else v
    some ((v2 - vmin) / (vmax - vmin))

/-- `__call__(value, clip=None)`: refresh `vmin`/`vmax` from `halfrange` when
set, then delegate to the base class (which autoscales on the value itself if
`halfrange` is still unset).  Returns the updated state and the mapped value
(`none` models a raised error). -/
def call (n : CenteredNorm) (v : ℚ) (clipArg : Option Bool) :
    CenteredNorm × Option ℚ :=
  let n1 := match n.halfrange with
    | some _ => setVminVmax n
    | none => n
  let n2 := autoscaleNone n1 [v]
  let clip := clipArg.getD n2.clip
  match n2.vmin, n2.vmax with
  | some mn, some mx => (n2, normalizeValue mn mx clip v)
  | _, _ => (n2, none)

end CenteredNorm

/-! ## `plot_data` -/

/-- A row of the Delta Dataset (`delta_df`): read/write hold percent changes,
which can be `inf`/`nan` when a baseline value is zero. -/
structure DeltaRow where
  ratio : ℚ
  conn_size : ℤ
  value_size : ℤ
  read : EFloat
  write : EFloat
deriving Repr, DecidableEq

/-- One row of `delta_df`: the non-latency columns are copied from `df1`
(`delta_df = df1.copy()`), read/write become `(b - a) / a * 100`. -/
def deltaRow (a b : DataRow) : DeltaRow :=
  { ratio := b.ratio, conn_size := b.conn_size, value_size := b.value_size,
    read := efMul (efDiv (efSub (.fin b.read) (.fin a.read)) (.fin a.read)) (.fin 100),
    write := efMul (efDiv (efSub (.fin b.write) (.fin a.write)) (.fin a.write)) (.fin 100) }

/-- The delta assignment `(df1 - df0) / df0 * 100` to the read and write
columns, aligned row by
row.  (pandas aligns on the index; the two files are required to have the
same row layout, under which index alignment is positional alignment.) -/
def delta_df (df0 df1 : List DataRow) : List DeltaRow :=
  List.zipWith deltaRow df0 df1

/-- `groupby` on ratio with the pandas default `sort=True`: distinct keys in
ascending order, each with its rows in original order. -/
def groupbyRatio (key : α → ℚ) (rows : List α) : List (ℚ × List α) :=
  (((rows.map key).dedup).mergeSort (· ≤ ·)).map
    (fun k => (k, rows.filter (fun r => key r = k)))

/-- Data content of the figure written by `plt.savefig` in dual mode. -/
structure DualFigure where
  panelsA : List (ℚ × List DataRow)
  panelsB : List (ℚ × List DataRow)
  panelsDelta : List (ℚ × List DeltaRow)
  /-- whether the delta panels were drawn with `norm=CenteredNorm()` -/
  deltaZeroCentered : Bool
deriving Repr, DecidableEq

/-- Data content of the saved figure (captions/colors/axes are presentation
and not modelled). -/
inductive FigureData where
  | single : List (ℚ × List DataRow) → FigureData
  | dual : DualFigure → FigureData
deriving Repr, DecidableEq

/-- `plot_data(title, *args)` data behaviour: one dataset gives per-ratio
panels; two give the A, B and delta panel columns; any other count raises
an `Exception` before `plt.savefig`, so an
`Except.error` means no image file is written.  `zero` is `params.zero`. -/
def plot_data (zero : Bool) (args : List Dataset) : Except String FigureData :=
  match args with
  | [a] => .ok (.single (groupbyRatio DataRow.ratio a.dataframe))
  | [a, b] =>
    .ok (.dual
      { panelsA := groupbyRatio DataRow.ratio a.dataframe,
        panelsB := groupbyRatio DataRow.ratio b.dataframe,
        panelsDelta := groupbyRatio DeltaRow.ratio (delta_df a.dataframe b.dataframe),
        deltaZeroCentered := zero })
  | _ => .error "invalid plot input data"

/-! ## Spec-side definitions (refinement targets)

These follow the words of the spec, to be compared with the column-wise
column-wise computation. -/

/-- Option-valued traversal (first failure aborts). -/
def mapO (f : α → Option β) : List α → Option (List β)
  | [] => some []
  | a :: as =>
    match f a with
    | none => none
    | some b =>
      match mapO f as with
      | none => none
      | some bs => some (b :: bs)

/-- Spec: "the float parsed from component `k` of the cell split on `:`". -/
def specCellComp (k : Nat) (cell : String) : Option ℚ :=
  ((splitColon cell.data)[k]?).bind parseFloatChars

/-- Spec: "the unweighted arithmetic mean over all columns whose name
contains `iter`" of component `k` of the cells of the given data row. -/
def specIterMean (k : Nat) (df : CsvFile) (row : List String) : Option ℚ :=
  match mapO (fun j => row[j]?.bind (specCellComp k)) (iterIdxs df) with
  | none => none
  | some vals =>
    if vals.length = 0 then none else some (vals.sum / (vals.length : ℚ))

/-! ## Malformed-content predicate (for the error-handling claims)

A file is `malformed` when it has a missing expected column, a non-numeric
field where a numeric value is required, or an iteration cell whose first or
second `:`-component is missing or unparseable. -/

/-- The cell at column `i` of row `r` does not coerce to float. -/
def badFloatCell (r : List String) (i : Nat) : Bool :=
  match r[i]? with
  | none => true
  | some s => (parseFloatChars s.data).isNone

/-- The cell at column `i` of row `r` does not coerce to int. -/
def badIntCell (r : List String) (i : Nat) : Bool :=
  match r[i]? with
  | none => true
  | some s => (parseIntChars s.data).isNone

/-- The iteration cell at column `j` of row `r` is malformed: component 0 or
component 1 of the `:`-split is missing or fails to parse as a float. -/
def badIterCell (r : List String) (j : Nat) : Bool :=
  match r[j]? with
  | none => true
  | some s => (specCellComp 0 s).isNone || (specCellComp 1 s).isNone

/-- Numeric-cell malformedness of one data row, given a resolved column. -/
def badNumAt (idx : Option Nat) (bad : List String → Nat → Bool) (r : List String) : Bool :=
  match idx with
  | none => true
  | some i => bad r i

/-- Malformed content per the (amended) claim: a missing expected column, a
non-numeric required field in a data row, or a malformed iteration cell in a
data row. -/
def malformed (df : CsvFile) : Bool :=
  (colIdx df "type").isNone || (colIdx df "ratio").isNone ||
  (colIdx df "conn_size").isNone || (colIdx df "value_size").isNone ||
  (dataRowsOf df).any (fun r =>
    (iterIdxs df).any (fun j => badIterCell r j) ||
    badNumAt (colIdx df "ratio") badFloatCell r ||
    badNumAt (colIdx df "conn_size") badIntCell r ||
    badNumAt (colIdx df "value_size") badIntCell r)

/-! ## CLI argument handling and `main` -/

/-- Python `bool(s)` for a string: false exactly on the empty string. -/
def pyBool (s : String) : Bool := s.length != 0

/-- The parsed `-z` (`--zero-centered`) flag: `argparse` applies `type=bool` to a
supplied value and uses `default=True` when the flag is absent. -/
def parseZeroArg : Option String → Bool
  | none => true
  | some s => pyBool s

/-- Outcome of one program run. -/
inductive ProgOutcome where
  | exited : Nat → ProgOutcome
  | raised : ProgOutcome
  | savedImage : FigureData → ProgOutcome
deriving Repr, DecidableEq

/-- `main()`: load the one or two input files, then plot.  A load failure is
`sys.exit(1)`; an invalid dataset count propagates as an uncaught exception;
otherwise exactly one image is written. -/
def mainModel (zeroArg : Option String) (a b : FileArg) : ProgOutcome :=
  match load_data_files [a, b] with
  | .error c => .exited c
  | .ok res =>
    match plot_data (parseZeroArg zeroArg) res with
    | .error _ => .raised
    | .ok fig => .savedImage fig

/-! ## Lemma infrastructure -/


theorem exE_ok_iff {o : Option α} {msg : String} {a : α} :
    exE o msg = .ok a ↔ o = some a := by
  cases o <;> simp [exE]

theorem bindE_ok {e : Except String α} {f : α → Except String β} {b : β}
    (h : (e >>= f) = .ok b) : ∃ a, e = .ok a ∧ f a = .ok b := by
  cases e with
  | error e => simp [Bind.bind, Except.bind] at h
  | ok a => exact ⟨a, rfl, by simpa [Bind.bind, Except.bind] using h⟩

theorem mapE_ok_length {f : α → Except String β} :
    ∀ {l : List α} {bs : List β}, mapE f l = .ok bs → bs.length = l.length := by
  intro l
  induction l with
  | nil => intro bs h; simp [mapE] at h; simp [← h]
  | cons a as ih =>
    intro bs h
    rw [mapE] at h
    cases hfa : f a with
    | error e => rw [hfa] at h; simp at h
    | ok b =>
      rw [hfa] at h
      cases hms : mapE f as with
      | error e => rw [hms] at h; simp at h
      | ok bs2 =>
        rw [hms] at h
        simp at h
        subst h
        simp [ih hms]

theorem mapE_ok_get {f : α → Except String β} :
    ∀ {l : List α} {bs : List β} {i : Nat} {a : α},
      mapE f l = .ok bs → l[i]? = some a → ∃ b, bs[i]? = some b ∧ f a = .ok b := by
  intro l
  induction l with
  | nil => intro bs i a h hib; simp at hib
  | cons x xs ih =>
    intro bs i a h hib
    rw [mapE] at h
    cases hfa : f x with
    | error e => rw [hfa] at h; simp at h
    | ok b =>
      rw [hfa] at h
      cases hms : mapE f xs with
      | error e => rw [hms] at h; simp at h
      | ok bs2 =>
        rw [hms] at h
        simp at h
        subst h
        cases i with
        | zero =>
          simp at hib
          subst hib
          exact ⟨b, by simp, hfa⟩
        | succ n =>
          simp at hib ⊢
          exact ih hms hib

theorem mapE_ok_mem {f : α → Except String β} {l : List α} {bs : List β}
    (h : mapE f l = .ok bs) {a : α} (ha : a ∈ l) : ∃ b, f a = .ok b := by
  obtain ⟨i, hi⟩ := List.get_of_mem ha
  have : l[i.1]? = some a := by
    rw [List.getElem?_eq_getElem i.2]
    simp [← hi, List.get_eq_getElem]
  obtain ⟨b, _, hb⟩ := mapE_ok_get h this
  exact ⟨b, hb⟩


theorem seriesAvg_ok {n : Nat} {cols : List (List ℚ)} {avg : List ℚ}
    (h : seriesAvg n cols = .ok avg) :
    cols.length ≠ 0 ∧ avg = (seriesSum n cols).map (· / (cols.length : ℚ)) := by
  unfold seriesAvg at h
  by_cases hc : cols.length = 0
  · simp [hc] at h
  · simp [hc] at h
    exact ⟨hc, h.symm⟩

theorem loadOne_ok_inv {df : CsvFile} {ds : Dataset}
    (h : loadOne df = .ok ds) :
    ∃ ti ps ri ci vi tmp read_df read_avg write_df write_avg ratios conns vals,
      colIdx df "type" = some ti ∧
      getParamStr df = .ok ps ∧
      colIdx df "ratio" = some ri ∧
      colIdx df "conn_size" = some ci ∧
      colIdx df "value_size" = some vi ∧
      mapE (fun j => mapE (splitCell j) (dataRowsOf df)) (iterIdxs df) = .ok tmp ∧
      mapE (mapE (parseComp 0)) tmp = .ok read_df ∧
      seriesAvg (dataRowsOf df).length read_df = .ok read_avg ∧
      mapE (mapE (parseComp 1)) tmp = .ok write_df ∧
      seriesAvg (dataRowsOf df).length write_df = .ok write_avg ∧
      mapE (cellFloat ri) (dataRowsOf df) = .ok ratios ∧
      mapE (cellInt ci) (dataRowsOf df) = .ok conns ∧
      mapE (cellInt vi) (dataRowsOf df) = .ok vals ∧
      ds = { dataframe := buildRows ratios conns vals read_avg write_avg,
             param := ps } := by
  unfold loadOne at h
  obtain ⟨ti, h1, h⟩ := bindE_ok h
  obtain ⟨ps, h2, h⟩ := bindE_ok h
  obtain ⟨ri, h3, h⟩ := bindE_ok h
  obtain ⟨ci, h4, h⟩ := bindE_ok h
  obtain ⟨vi, h5, h⟩ := bindE_ok h
  obtain ⟨tmp, h6, h⟩ := bindE_ok h
  obtain ⟨read_df, h7, h⟩ := bindE_ok h
  obtain ⟨read_avg, h8, h⟩ := bindE_ok h
  obtain ⟨write_df, h9, h⟩ := bindE_ok h
  obtain ⟨write_avg, h10, h⟩ := bindE_ok h
  obtain ⟨ratios, h11, h⟩ := bindE_ok h
  obtain ⟨conns, h12, h⟩ := bindE_ok h
  obtain ⟨vals, h13, h⟩ := bindE_ok h
  rw [exE_ok_iff] at h1 h3 h4 h5
  have hds : ds = { dataframe := buildRows ratios conns vals read_avg write_avg,
                    param := ps } := by
    simpa [Pure.pure, Except.pure] using h.symm
  exact ⟨ti, ps, ri, ci, vi, tmp, read_df, read_avg, write_df, write_avg,
    ratios, conns, vals, h1, h2, h3, h4, h5, h6, h7, h8, h9, h10, h11, h12, h13, hds⟩


theorem seriesAdd_length {a b : List ℚ} :
    (seriesAdd a b).length = min a.length b.length := by
  simp [seriesAdd]

theorem getElem?_eq_getD {a : List ℚ} {i n : Nat} (ha : a.length = n) (hi : i < n) :
    a[i]? = some (a.getD i 0) := by
  rw [List.getD_eq_getElem?_getD]
  rw [List.getElem?_eq_getElem (by omega)]
  simp

theorem seriesAdd_getElem? {a b : List ℚ} {n i : Nat}
    (ha : a.length = n) (hb : b.length = n) (hi : i < n) :
    (seriesAdd a b)[i]? = some (a.getD i 0 + b.getD i 0) := by
  rw [seriesAdd, List.getElem?_zipWith, getElem?_eq_getD ha hi, getElem?_eq_getD hb hi]

theorem foldl_seriesAdd_getElem? :
    ∀ (cols : List (List ℚ)) (acc : List ℚ) (n i : Nat),
      acc.length = n → (∀ c ∈ cols, c.length = n) → i < n →
      (cols.foldl seriesAdd acc)[i]? =
        some (acc.getD i 0 + (cols.map (fun c => c.getD i 0)).sum) := by
  intro cols
  induction cols with
  | nil =>
    intro acc n i ha _ hi
    simp only [List.foldl_nil, List.map_nil, List.sum_nil, add_zero]
    exact getElem?_eq_getD ha hi
  | cons c cs ih =>
    intro acc n i ha hc hi
    have hlen : (seriesAdd acc c).length = n := by
      rw [seriesAdd_length, ha, hc c (by simp)]
      omega
    have hstep := ih (seriesAdd acc c) n i hlen (fun x hx => hc x (by simp [hx])) hi
    rw [List.foldl_cons, hstep]
    have hg : (seriesAdd acc c).getD i 0 = acc.getD i 0 + c.getD i 0 := by
      rw [List.getD_eq_getElem?_getD, seriesAdd_getElem? ha (hc c (by simp)) hi]
      simp
    rw [hg]
    simp [add_assoc]

theorem seriesSum_getElem? {n i : Nat} {cols : List (List ℚ)}
    (hc : ∀ c ∈ cols, c.length = n) (hi : i < n) :
    (seriesSum n cols)[i]? = some ((cols.map (fun c => c.getD i 0)).sum) := by
  unfold seriesSum
  rw [foldl_seriesAdd_getElem? cols (List.replicate n 0) n i (by simp) hc hi]
  rw [List.getD_eq_getElem?_getD, List.getElem?_replicate]
  simp [hi]

theorem foldl_seriesAdd_length :
    ∀ (cols : List (List ℚ)) (acc : List ℚ) (n : Nat),
      acc.length = n → (∀ c ∈ cols, c.length = n) →
      (cols.foldl seriesAdd acc).length = n := by
  intro cols
  induction cols with
  | nil => intro acc n ha _; simpa using ha
  | cons c cs ih =>
    intro acc n ha hc
    rw [List.foldl_cons]
    apply ih
    · rw [seriesAdd_length, ha, hc c (by simp)]; omega
    · exact fun x hx => hc x (by simp [hx])

theorem seriesSum_length {n : Nat} {cols : List (List ℚ)}
    (hc : ∀ c ∈ cols, c.length = n) : (seriesSum n cols).length = n :=
  foldl_seriesAdd_length cols (List.replicate n 0) n (by simp) hc

theorem buildRows_getElem? :
    ∀ (i : Nat) (rs : List ℚ) (cs vs : List ℤ) (as ws : List ℚ)
      (x1 : ℚ) (x2 x3 : ℤ) (x4 x5 : ℚ),
      rs[i]? = some x1 → cs[i]? = some x2 → vs[i]? = some x3 →
      as[i]? = some x4 → ws[i]? = some x5 →
      (buildRows rs cs vs as ws)[i]? = some ⟨x1, x2, x3, x4, x5⟩ := by
  intro i
  induction i with
  | zero =>
    intro rs cs vs as ws x1 x2 x3 x4 x5 h1 h2 h3 h4 h5
    cases rs <;> cases cs <;> cases vs <;> cases as <;> cases ws <;>
      simp_all [buildRows]
  | succ m ih =>
    intro rs cs vs as ws x1 x2 x3 x4 x5 h1 h2 h3 h4 h5
    cases rs with
    | nil => simp at h1
    | cons r rt =>
      cases cs with
      | nil => simp at h2
      | cons c ct =>
        cases vs with
        | nil => simp at h3
        | cons v vt =>
          cases as with
          | nil => simp at h4
          | cons a at2 =>
            cases ws with
            | nil => simp at h5
            | cons w wt =>
              simp only [List.getElem?_cons_succ] at h1 h2 h3 h4 h5
              rw [buildRows]
              simp only [List.getElem?_cons_succ]
              exact ih rt ct vt at2 wt x1 x2 x3 x4 x5 h1 h2 h3 h4 h5


theorem mapE_ok_get2 {f : α → Except String β} :
    ∀ {l : List α} {bs : List β} {i : Nat} {b : β},
      mapE f l = .ok bs → bs[i]? = some b → ∃ a, l[i]? = some a ∧ f a = .ok b := by
  intro l
  induction l with
  | nil =>
    intro bs i b h hib
    rw [mapE] at h
    simp at h
    subst h
    simp at hib
  | cons x xs ih =>
    intro bs i b h hib
    rw [mapE] at h
    cases hfa : f x with
    | error e => rw [hfa] at h; simp at h
    | ok b0 =>
      rw [hfa] at h
      cases hms : mapE f xs with
      | error e => rw [hms] at h; simp at h
      | ok bs2 =>
        rw [hms] at h
        simp at h
        subst h
        cases i with
        | zero =>
          simp at hib
          subst hib
          exact ⟨x, by simp, hfa⟩
        | succ m =>
          simp at hib ⊢
          exact ih hms hib

theorem mapO_eq_some {f : α → Option β} :
    ∀ {l : List α} {bs : List β},
      bs.length = l.length →
      (∀ (j : Nat) (a : α), l[j]? = some a → ∃ b, bs[j]? = some b ∧ f a = some b) →
      mapO f l = some bs := by
  intro l
  induction l with
  | nil =>
    intro bs hlen _
    rw [List.length_nil, List.length_eq_zero] at hlen
    subst hlen
    rfl
  | cons a as ih =>
    intro bs hlen hpt
    obtain ⟨b0, hb0, hfa⟩ := hpt 0 a (by simp)
    cases bs with
    | nil => simp at hb0
    | cons b bs2 =>
      simp at hb0
      subst hb0
      rw [mapO, hfa]
      rw [ih (by simpa using hlen) (fun j x hx => by
        have := hpt (j + 1) x (by simpa using hx)
        simpa using this)]

theorem cellE_ok {r : List String} {j : Nat} {s : String} :
    cellE r j = .ok s ↔ r[j]? = some s := by
  rw [cellE, exE_ok_iff]

theorem splitCell_ok {j : Nat} {r : List String} {parts : List (List Char)}
    (h : splitCell j r = .ok parts) :
    ∃ cell, r[j]? = some cell ∧ parts = splitColon cell.data := by
  unfold splitCell at h
  obtain ⟨cell, hc, h⟩ := bindE_ok h
  rw [cellE_ok] at hc
  refine ⟨cell, hc, ?_⟩
  simpa [Pure.pure, Except.pure] using h.symm

theorem parseComp_ok {k : Nat} {parts : List (List Char)} {q : ℚ}
    (h : parseComp k parts = .ok q) :
    ∃ cs, parts[k]? = some cs ∧ parseFloatChars cs = some q := by
  unfold parseComp at h
  cases hp : parts[k]? with
  | none => rw [hp] at h; simp at h
  | some cs =>
    rw [hp] at h
    rw [exE_ok_iff] at h
    exact ⟨cs, rfl, h⟩

theorem cellFloat_ok {i : Nat} {r : List String} {q : ℚ}
    (h : cellFloat i r = .ok q) :
    ∃ s, r[i]? = some s ∧ parseFloatChars s.data = some q := by
  unfold cellFloat at h
  obtain ⟨s, hs, h⟩ := bindE_ok h
  rw [cellE_ok] at hs
  rw [exE_ok_iff] at h
  exact ⟨s, hs, h⟩

theorem cellInt_ok {i : Nat} {r : List String} {z : ℤ}
    (h : cellInt i r = .ok z) :
    ∃ s, r[i]? = some s ∧ parseIntChars s.data = some z := by
  unfold cellInt at h
  obtain ⟨s, hs, h⟩ := bindE_ok h
  rw [cellE_ok] at hs
  rw [exE_ok_iff] at h
  exact ⟨s, hs, h⟩


theorem stage_mean {df : CsvFile} {tmp : List (List (List (List Char)))}
    {kdf : List (List ℚ)} {avg : List ℚ} {i : Nat} {r : List String} {k : Nat}
    (h6 : mapE (fun j => mapE (splitCell j) (dataRowsOf df)) (iterIdxs df) = .ok tmp)
    (h7 : mapE (mapE (parseComp k)) tmp = .ok kdf)
    (h8 : seriesAvg (dataRowsOf df).length kdf = .ok avg)
    (hr : (dataRowsOf df)[i]? = some r) :
    ∃ v, avg[i]? = some v ∧ specIterMean k df r = some v := by
  have hi : i < (dataRowsOf df).length := (List.getElem?_eq_some.mp hr).1
  have hlen_tmp : tmp.length = (iterIdxs df).length := mapE_ok_length h6
  have hlen_kdf : kdf.length = tmp.length := mapE_ok_length h7
  have hcols : ∀ c ∈ kdf, c.length = (dataRowsOf df).length := by
    intro c hc
    obtain ⟨j, hj⟩ := List.mem_iff_getElem?.mp hc
    obtain ⟨colT, hcolT, hmap⟩ := mapE_ok_get2 h7 hj
    obtain ⟨jc, _, hcol6⟩ := mapE_ok_get2 h6 hcolT
    have e1 : c.length = colT.length := mapE_ok_length hmap
    have e2 : colT.length = (dataRowsOf df).length := mapE_ok_length hcol6
    omega
  obtain ⟨hne, havg⟩ := seriesAvg_ok h8
  have hsum := seriesSum_getElem? hcols hi
  have havgget : avg[i]? =
      some ((kdf.map (fun c => c.getD i 0)).sum / (kdf.length : ℚ)) := by
    rw [havg, List.getElem?_map, hsum]
    rfl
  refine ⟨_, havgget, ?_⟩
  have hmapO : mapO (fun j => r[j]?.bind (specCellComp k)) (iterIdxs df)
      = some (kdf.map (fun c => c.getD i 0)) := by
    apply mapO_eq_some
    · rw [List.length_map]; omega
    · intro j jc hj
      obtain ⟨colT, hcolT, hsplit⟩ := mapE_ok_get h6 hj
      obtain ⟨kcol, hkcol, hparse⟩ := mapE_ok_get h7 hcolT
      obtain ⟨parts, hparts, hsplitr⟩ := mapE_ok_get hsplit hr
      obtain ⟨q, hq, hpq⟩ := mapE_ok_get hparse hparts
      obtain ⟨cell, hcell, hparts_eq⟩ := splitCell_ok hsplitr
      obtain ⟨cs, hcs, hfl⟩ := parseComp_ok hpq
      refine ⟨kcol.getD i 0, ?_, ?_⟩
      · rw [List.getElem?_map, hkcol]
        rfl
      · rw [hcell]
        show specCellComp k cell = some _
        rw [specCellComp, ← hparts_eq, hcs]
        show parseFloatChars cs = some _
        rw [hfl]
        have hqe : kcol.getD i 0 = q := by
          rw [List.getD_eq_getElem?_getD, hq]
          rfl
        rw [hqe]
  unfold specIterMean
  rw [hmapO]
  simp only [List.length_map]
  rw [if_neg hne]


/-! ## Claim theorems -/


theorem zipWith_getElem?_some {f : α → β → γ} {l1 : List α} {l2 : List β}
    {i : Nat} {a : α} {b : β} (h1 : l1[i]? = some a) (h2 : l2[i]? = some b) :
    (List.zipWith f l1 l2)[i]? = some (f a b) := by
  rw [List.getElem?_zipWith, h1, h2]

theorem efDiv_fin_zero {x : ℚ} :
    efDiv (.fin x) (.fin 0) = if x = 0 then .nan else if 0 < x then .pinf else .ninf := rfl

/-- C2: when two datasets are supplied, the read and write columns of the Delta Dataset
columns equal `(b - a) / a * 100` element-wise, aligned row-by-row by
position; a zero `a` value produces infinity or NaN, never a silently clamped
finite value. -/
theorem C2_delta_percent_change {df0 df1 : List DataRow} {i : Nat}
    {a b : DataRow} (h0 : df0[i]? = some a) (h1 : df1[i]? = some b) :
    ∃ d, (delta_df df0 df1)[i]? = some d ∧
      (a.read ≠ 0 → d.read = .fin ((b.read - a.read) / a.read * 100)) ∧
      (a.write ≠ 0 → d.write = .fin ((b.write - a.write) / a.write * 100)) ∧
      (a.read = 0 → d.read = .nan ∨ d.read = .pinf ∨ d.read = .ninf) ∧
      (a.write = 0 → d.write = .nan ∨ d.write = .pinf ∨ d.write = .ninf) := by
  refine ⟨deltaRow a b, zipWith_getElem?_some h0 h1, ?_, ?_, ?_, ?_⟩
  · intro hne
    simp [deltaRow, efSub, efDiv, efMul, hne]
  · intro hne
    simp [deltaRow, efSub, efDiv, efMul, hne]
  · intro hz
    simp only [deltaRow, hz, efSub, sub_zero]
    rcases lt_trichotomy b.read 0 with hb | hb | hb
    · right; right
      rw [efDiv_fin_zero, if_neg (ne_of_lt hb), if_neg (not_lt.mpr hb.le)]
      norm_num [efMul]
    · left
      rw [efDiv_fin_zero, if_pos hb]
      rfl
    · right; left
      rw [efDiv_fin_zero, if_neg (ne_of_gt hb), if_pos hb]
      norm_num [efMul]
  · intro hz
    simp only [deltaRow, hz, efSub, sub_zero]
    rcases lt_trichotomy b.write 0 with hb | hb | hb
    · right; right
      rw [efDiv_fin_zero, if_neg (ne_of_lt hb), if_neg (not_lt.mpr hb.le)]
      norm_num [efMul]
    · left
      rw [efDiv_fin_zero, if_pos hb]
      rfl
    · right; left
      rw [efDiv_fin_zero, if_neg (ne_of_gt hb), if_pos hb]
      norm_num [efMul]

theorem C2_witness :
    ([⟨1, 8, 256, 0, 2⟩] : List DataRow)[0]? = some ⟨1, 8, 256, 0, 2⟩ ∧
    ([⟨1, 8, 256, 5, 3⟩] : List DataRow)[0]? = some ⟨1, 8, 256, 5, 3⟩ ∧
    (∃ d, (delta_df [⟨1, 8, 256, 0, 2⟩] [⟨1, 8, 256, 5, 3⟩])[0]? = some d ∧
      ((⟨1, 8, 256, 0, 2⟩ : DataRow).read ≠ 0 →
        d.read = .fin (((⟨1, 8, 256, 5, 3⟩ : DataRow).read -
          (⟨1, 8, 256, 0, 2⟩ : DataRow).read) / (⟨1, 8, 256, 0, 2⟩ : DataRow).read * 100)) ∧
      ((⟨1, 8, 256, 0, 2⟩ : DataRow).write ≠ 0 →
        d.write = .fin (((⟨1, 8, 256, 5, 3⟩ : DataRow).write -
          (⟨1, 8, 256, 0, 2⟩ : DataRow).write) / (⟨1, 8, 256, 0, 2⟩ : DataRow).write * 100)) ∧
      ((⟨1, 8, 256, 0, 2⟩ : DataRow).read = 0 →
        d.read = .nan ∨ d.read = .pinf ∨ d.read = .ninf) ∧
      ((⟨1, 8, 256, 0, 2⟩ : DataRow).write = 0 →
        d.write = .nan ∨ d.write = .pinf ∨ d.write = .ninf)) :=
  ⟨rfl, rfl, C2_delta_percent_change rfl rfl⟩

/-- C3: for every non-empty data array `A`, `autoscale(A)` sets halfrange to
`max(vcenter - min(A), max(A) - vcenter)`; with vcenter 0, `autoscale([-2,0,4])`
yields halfrange 4, and then -2 maps to 0.25, 0 to 0.5 and 4 to 1.0. -/
theorem C3_autoscale_halfrange (n : CenteredNorm) {A : List ℚ} (hne : A ≠ []) :
    (∃ mn mx, A.min? = some mn ∧ A.max? = some mx ∧
      (n.autoscale A).halfrange = some (max (n.vcenter - mn) (mx - n.vcenter))) ∧
    ((CenteredNorm.init 0 none false).autoscale [-2, 0, 4]).halfrange = some 4 ∧
    (((CenteredNorm.init 0 none false).autoscale [-2, 0, 4]).call (-2) none).2 =
      some (1/4) ∧
    (((CenteredNorm.init 0 none false).autoscale [-2, 0, 4]).call 0 none).2 =
      some (1/2) ∧
    (((CenteredNorm.init 0 none false).autoscale [-2, 0, 4]).call 4 none).2 =
      some 1 := by
  refine ⟨?_, by with_unfolding_all rfl, by with_unfolding_all rfl,
    by with_unfolding_all rfl, by with_unfolding_all rfl⟩
  obtain ⟨mn, hmn⟩ : ∃ mn, A.min? = some mn := by
    cases hA : A.min? with
    | none => exact absurd (List.min?_eq_none_iff.mp hA) hne
    | some mn => exact ⟨mn, rfl⟩
  obtain ⟨mx, hmx⟩ : ∃ mx, A.max? = some mx := by
    cases hA : A.max? with
    | none => exact absurd (List.max?_eq_none_iff.mp hA) hne
    | some mx => exact ⟨mx, rfl⟩
  refine ⟨mn, mx, hmn, hmx, ?_⟩
  rw [CenteredNorm.autoscale, hmn, hmx]
  rfl

theorem C3_witness :
    ([-2, 0, 4] : List ℚ) ≠ [] ∧
    (∃ mn mx, ([-2, 0, 4] : List ℚ).min? = some mn ∧
      ([-2, 0, 4] : List ℚ).max? = some mx ∧
      ((CenteredNorm.init 0 none false).autoscale [-2, 0, 4]).halfrange =
        some (max ((CenteredNorm.init 0 none false).vcenter - mn)
          (mx - (CenteredNorm.init 0 none false).vcenter))) ∧
    ((CenteredNorm.init 0 none false).autoscale [-2, 0, 4]).halfrange = some 4 ∧
    (((CenteredNorm.init 0 none false).autoscale [-2, 0, 4]).call (-2) none).2 =
      some (1/4) ∧
    (((CenteredNorm.init 0 none false).autoscale [-2, 0, 4]).call 0 none).2 =
      some (1/2) ∧
    (((CenteredNorm.init 0 none false).autoscale [-2, 0, 4]).call 4 none).2 =
      some 1 :=
  ⟨by simp, C3_autoscale_halfrange (CenteredNorm.init 0 none false) (by simp)⟩

/-- C4: for a `CenteredNorm` with center `c` and fixed halfrange `h > 0`,
evaluating the normalizer on `v` with clip disabled yields
`0.5 + (v - c) / (2h)`; `c - h` maps to 0 and `c + h` maps to 1. -/
theorem C4_mapping_rule {n : CenteredNorm} {c h v : ℚ}
    (hh : n.halfrange = some h) (hpos : 0 < h) (hc : n.vcenter = c)
    (hclip : n.clip = false) :
    (n.call v none).2 = some (1/2 + (v - c) / (2 * h)) ∧
    (n.call (c - h) none).2 = some 0 ∧
    (n.call (c + h) none).2 = some 1 := by
  have key : ∀ w : ℚ, (n.call w none).2 = some ((w - (c - h)) / (c + h - (c - h))) := by
    intro w
    rw [CenteredNorm.call, hh]
    have hsv : n.setVminVmax =
        { n with vmax := some (n.vcenter + h), vmin := some (n.vcenter - h) } := by
      rw [CenteredNorm.setVminVmax, hh]
    rw [hsv]
    have han : CenteredNorm.autoscaleNone
        { n with vmax := some (n.vcenter + h), vmin := some (n.vcenter - h) } [w] =
        { n with vmax := some (n.vcenter + h), vmin := some (n.vcenter - h) } := by
      rw [CenteredNorm.autoscaleNone]
      simp [hh]
    rw [han]
    simp only [hc, hclip, Option.getD_none]
    rw [CenteredNorm.normalizeValue]
    rw [if_neg (by intro hcon; apply absurd hcon; intro hcon2; nlinarith)]
    rw [if_neg (by intro hcon; nlinarith)]
    simp
  have harith : ∀ w : ℚ, (w - (c - h)) / (c + h - (c - h)) = 1/2 + (w - c) / (2 * h) := by
    intro w
    have h2 : c + h - (c - h) = 2 * h := by ring
    rw [h2]
    field_simp
    ring
  refine ⟨by rw [key, harith], ?_, ?_⟩
  · rw [key (c - h)]
    congr 1
    rw [sub_self, zero_div]
  · rw [key (c + h)]
    congr 1
    exact div_self (by intro hcon; nlinarith)

theorem C4_witness :
    (CenteredNorm.init 1 (some 2) false).halfrange = some 2 ∧
    (0 : ℚ) < 2 ∧
    ((CenteredNorm.init 1 (some 2) false).call 2 none).2 = some (1/2 + (2 - 1) / (2 * 2)) ∧
    ((CenteredNorm.init 1 (some 2) false).call ((1 : ℚ) - 2) none).2 = some 0 ∧
    ((CenteredNorm.init 1 (some 2) false).call ((1 : ℚ) + 2) none).2 = some 1 :=
  ⟨by with_unfolding_all rfl, by norm_num,
    (@C4_mapping_rule (CenteredNorm.init 1 (some 2) false) 1 2 2
      (by with_unfolding_all rfl) (by norm_num) (by with_unfolding_all rfl)
      (by with_unfolding_all rfl)).1,
    (@C4_mapping_rule (CenteredNorm.init 1 (some 2) false) 1 2 ((1 : ℚ) - 2)
      (by with_unfolding_all rfl) (by norm_num) (by with_unfolding_all rfl)
      (by with_unfolding_all rfl)).2.1,
    (@C4_mapping_rule (CenteredNorm.init 1 (some 2) false) 1 2 ((1 : ℚ) + 2)
      (by with_unfolding_all rfl) (by norm_num) (by with_unfolding_all rfl)
      (by with_unfolding_all rfl)).2.2⟩

/-- C5: for a `CenteredNorm` whose vmin and vmax are already set, assigning a
new vcenter recomputes halfrange from the existing vmin and vmax (so the old
span stays inside the new one, one of its endpoints is kept, and, starting
from a consistent state, the original halfrange value is not kept when the
center actually moves). -/
theorem C5_vcenter_recompute {n : CenteredNorm} {mn mx : ℚ} (c2 : ℚ)
    (hmn : n.vmin = some mn) (hmx : n.vmax = some mx) :
    (n.setVcenter c2).halfrange = some (max (c2 - mn) (mx - c2)) ∧
    (n.setVcenter c2).vmin = some (c2 - max (c2 - mn) (mx - c2)) ∧
    (n.setVcenter c2).vmax = some (c2 + max (c2 - mn) (mx - c2)) ∧
    c2 - max (c2 - mn) (mx - c2) ≤ mn ∧
    mx ≤ c2 + max (c2 - mn) (mx - c2) ∧
    ((n.setVcenter c2).vmin = some mn ∨ (n.setVcenter c2).vmax = some mx) ∧
    (n.halfrange = some ((mx - mn) / 2) → c2 ≠ (mn + mx) / 2 →
      (n.setVcenter c2).halfrange ≠ n.halfrange) := by
  have hset : n.setVcenter c2 =
      { n with
        vcenter := c2,
        halfrange := some (max (c2 - mn) (mx - c2)),
        vmin := some (c2 - max (c2 - mn) (mx - c2)),
        vmax := some (c2 + max (c2 - mn) (mx - c2)) } := by
    rw [CenteredNorm.setVcenter]
    simp only [hmx, hmn]
    rw [CenteredNorm.setVminVmax]
  have hle1 : c2 - mn ≤ max (c2 - mn) (mx - c2) := le_max_left _ _
  have hle2 : mx - c2 ≤ max (c2 - mn) (mx - c2) := le_max_right _ _
  refine ⟨by rw [hset], by rw [hset], by rw [hset], by linarith, by linarith, ?_, ?_⟩
  · rcases max_choice (c2 - mn) (mx - c2) with hmc | hmc
    · left
      rw [hset]
      simp only [hmc]
      congr 1
      ring
    · right
      rw [hset]
      simp only [hmc]
      congr 1
      ring
  · intro hold hne
    rw [hset, hold]
    simp only [ne_eq, Option.some.injEq]
    intro hcon
    rcases lt_or_gt_of_ne hne with hlt | hgt
    · have : (mx - mn) / 2 < mx - c2 := by linarith
      have : (mx - mn) / 2 < max (c2 - mn) (mx - c2) := lt_of_lt_of_le this hle2
      linarith [hcon ▸ this]
    · have : (mx - mn) / 2 < c2 - mn := by linarith
      have : (mx - mn) / 2 < max (c2 - mn) (mx - c2) := lt_of_lt_of_le this hle1
      linarith [hcon ▸ this]

theorem C5_witness :
    (⟨0, some 4, some (-4), some 4, false⟩ : CenteredNorm).vmin = some (-4) ∧
    (⟨0, some 4, some (-4), some 4, false⟩ : CenteredNorm).vmax = some 4 ∧
    ((⟨0, some 4, some (-4), some 4, false⟩ : CenteredNorm).setVcenter 1).halfrange =
      some (max ((1 : ℚ) - (-4)) (4 - 1)) :=
  ⟨rfl, rfl,
    (@C5_vcenter_recompute ⟨0, some 4, some (-4), some 4, false⟩ (-4) 4 1 rfl rfl).1⟩

/-- C7: for every invocation naming an input file that does not exist, the
process terminates with exit code 1 and no image file is written. -/
theorem C7_missing_file_exits_one (zeroArg : Option String) (a b : FileArg)
    (h : a = FileArg.missing ∨ b = FileArg.missing) :
    mainModel zeroArg a b = .exited 1 := by
  have hload : load_data_files [a, b] = .error 1 := by
    rcases h with h | h
    · subst h
      rfl
    · subst h
      cases a with
      | absent => rfl
      | missing => rfl
      | present f => rfl
  rw [mainModel, hload]

theorem C7_witness :
    (FileArg.missing = FileArg.missing ∨
      FileArg.present ⟨[], []⟩ = FileArg.missing) ∧
    mainModel none FileArg.missing (FileArg.present ⟨[], []⟩) = .exited 1 :=
  ⟨Or.inl rfl, C7_missing_file_exits_one none _ _ (Or.inl rfl)⟩

/-- C8: calling the renderer with a dataset count other than 1 or 2 raises an
error before any save occurs, so no output image file is produced. -/
theorem C8_invalid_dataset_count (zero : Bool) (args : List Dataset)
    (h1 : args.length ≠ 1) (h2 : args.length ≠ 2) :
    plot_data zero args = .error "invalid plot input data" := by
  match args with
  | [] => rfl
  | [a] => exact absurd rfl h1
  | [a, b] => exact absurd rfl h2
  | a :: b :: c :: t => rfl

theorem C8_witness :
    ([⟨[], ""⟩, ⟨[], ""⟩, ⟨[], ""⟩] : List Dataset).length ≠ 1 ∧
    ([⟨[], ""⟩, ⟨[], ""⟩, ⟨[], ""⟩] : List Dataset).length ≠ 2 ∧
    plot_data true [⟨[], ""⟩, ⟨[], ""⟩, ⟨[], ""⟩] = .error "invalid plot input data" :=
  ⟨by decide, by decide,
    C8_invalid_dataset_count true _ (by decide) (by decide)⟩

/-- C10: any non-empty string supplied to the zero-centered flag — including
"False" and "0" — parses as true, because `argparse` converts it with the
Python `bool`; it is false only for an explicit empty-string value, so the
zero-centering of the delta panel cannot be disabled by a false-looking
value. -/
theorem C10_zero_flag_python_bool (s : String) (o : Option String)
    (hs : s ≠ "") (dsa dsb : Dataset) :
    parseZeroArg (some s) = true ∧
    parseZeroArg (some "False") = true ∧
    parseZeroArg (some "0") = true ∧
    parseZeroArg none = true ∧
    (parseZeroArg o = false ↔ o = some "") ∧
    (∃ fig, plot_data (parseZeroArg (some s)) [dsa, dsb] = .ok (.dual fig) ∧
      fig.deltaZeroCentered = true) := by
  have hlen : ∀ t : String, t.length = 0 ↔ t = "" := by
    intro t
    cases t with
    | mk data =>
      cases data with
      | nil => simp
      | cons c cs => simp [String.length, String.ext_iff]
  have htrue : parseZeroArg (some s) = true := by
    rw [parseZeroArg, pyBool]
    simp only [bne_iff_ne, ne_eq, hlen]
    simp [hs]
  refine ⟨htrue, by decide, by decide, rfl, ?_, ?_⟩
  · cases o with
    | none => simp [parseZeroArg]
    | some t =>
      rw [parseZeroArg, pyBool]
      simp only [Option.some.injEq]
      constructor
      · intro ht
        exact (hlen t).mp (by simpa using ht)
      · intro ht
        subst ht
        rfl
  · refine ⟨_, rfl, ?_⟩
    rw [htrue]

theorem C10_witness :
    ("False" : String) ≠ "" ∧
    (parseZeroArg (some "False") = true ∧
      parseZeroArg (some "False") = true ∧
      parseZeroArg (some "0") = true ∧
      parseZeroArg none = true ∧
      (parseZeroArg (some "") = false ↔ (some "" : Option String) = some "") ∧
      (∃ fig, plot_data (parseZeroArg (some "False")) [⟨[], ""⟩, ⟨[], ""⟩] =
          .ok (.dual fig) ∧ fig.deltaZeroCentered = true)) :=
  ⟨by decide, C10_zero_flag_python_bool "False" (some "") (by decide) ⟨[], ""⟩ ⟨[], ""⟩⟩

/-- C9: the annotation of a loaded file is the `comment` field of the first `PARAM`
row, and a file with zero `PARAM` rows yields the empty annotation, never an
error. -/
theorem C9_param_comment_field {df : CsvFile} {ds : Dataset}
    (h : loadOne df = .ok ds) :
    (paramRowsOf df = [] → ds.param = "") ∧
    (∀ r rest, paramRowsOf df = r :: rest →
      ∃ ci, colIdx df "comment" = some ci ∧ r[ci]? = some ds.param) := by
  obtain ⟨ti, ps, ri, ci, vi, tmp, read_df, read_avg, write_df, write_avg,
    ratios, conns, vals, h1, h2, h3, h4, h5, h6, h7, h8, h9, h10, h11, h12,
    h13, hds⟩ := loadOne_ok_inv h
  have hps : ds.param = ps := by rw [hds]
  constructor
  · intro hp
    rw [getParamStr, hp] at h2
    simp only [Except.ok.injEq] at h2
    rw [hps, ← h2]
  · intro r rest hp
    rw [getParamStr, hp] at h2
    obtain ⟨ci2, hci, hcell⟩ := bindE_ok h2
    rw [exE_ok_iff] at hci
    rw [cellE_ok] at hcell
    exact ⟨ci2, hci, by rw [hps]; exact hcell⟩

def c9File : CsvFile :=
  { header := ["type", "ratio", "conn_size", "value_size", "iter1"],
    rows := [["DATA", "0.5", "8", "256", "1:2"]] }

def c9Dataset : Dataset :=
  { dataframe := [{ ratio := 1/2, conn_size := 8, value_size := 256,
                    read := 1, write := 2 }],
    param := "" }

theorem C9_witness :
    loadOne c9File = .ok c9Dataset ∧ paramRowsOf c9File = [] ∧
    c9Dataset.param = "" :=
  ⟨by with_unfolding_all rfl, by with_unfolding_all rfl,
    (@C9_param_comment_field c9File c9Dataset (by with_unfolding_all rfl)).1
      (by with_unfolding_all rfl)⟩

/-- C1: for every valid CSV input file, the `read` column of the loader equals,
per row, the unweighted arithmetic mean over all columns whose name contains
"iter" of the float parsed from component 0 of the cell split on `:`, and the
`write` column equals the mean of the floats parsed from component 1. -/
theorem C1_loader_read_write_mean {df : CsvFile} {ds : Dataset} {i : Nat}
    {r : List String} (h : loadOne df = .ok ds)
    (hr : (dataRowsOf df)[i]? = some r) :
    ∃ d, ds.dataframe[i]? = some d ∧
      specIterMean 0 df r = some d.read ∧ specIterMean 1 df r = some d.write := by
  obtain ⟨ti, ps, ri, ci, vi, tmp, read_df, read_avg, write_df, write_avg,
    ratios, conns, vals, h1, h2, h3, h4, h5, h6, h7, h8, h9, h10, h11, h12,
    h13, hds⟩ := loadOne_ok_inv h
  have hi : i < (dataRowsOf df).length := (List.getElem?_eq_some.mp hr).1
  obtain ⟨vr, havr, hsr⟩ := stage_mean h6 h7 h8 hr
  obtain ⟨vw, havw, hsw⟩ := stage_mean h6 h9 h10 hr
  have h1l : i < ratios.length := by rw [mapE_ok_length h11]; exact hi
  have h2l : i < conns.length := by rw [mapE_ok_length h12]; exact hi
  have h3l : i < vals.length := by rw [mapE_ok_length h13]; exact hi
  have hbuild := buildRows_getElem? i ratios conns vals read_avg write_avg
    ratios[i] conns[i] vals[i] vr vw
    (List.getElem?_eq_getElem h1l) (List.getElem?_eq_getElem h2l)
    (List.getElem?_eq_getElem h3l) havr havw
  subst hds
  exact ⟨⟨ratios[i], conns[i], vals[i], vr, vw⟩, hbuild, hsr, hsw⟩

def c1File : CsvFile :=
  { header := ["type", "comment", "ratio", "conn_size", "value_size",
               "iter1", "iter2"],
    rows := [
      ["PARAM", "hello", "", "", "", "", ""],
      ["DATA", "", "0.5", "8", "256", "1.0:2.0", "3.0:4.0"],
      ["DATA", "", "0.5", "16", "1024", "5:6", "7:8"]] }

theorem C1_witness :
    loadOne c1File = .ok
      { dataframe := [
          { ratio := 1/2, conn_size := 8, value_size := 256, read := 2, write := 3 },
          { ratio := 1/2, conn_size := 16, value_size := 1024, read := 6, write := 7 }],
        param := "hello" } ∧
    (dataRowsOf c1File)[0]? =
      some ["DATA", "", "0.5", "8", "256", "1.0:2.0", "3.0:4.0"] ∧
    (∃ d,
      ({ dataframe := [
          { ratio := 1/2, conn_size := 8, value_size := 256, read := 2, write := 3 },
          { ratio := 1/2, conn_size := 16, value_size := 1024, read := 6, write := 7 }],
         param := "hello" } : Dataset).dataframe[0]? = some d ∧
      specIterMean 0 c1File ["DATA", "", "0.5", "8", "256", "1.0:2.0", "3.0:4.0"] =
        some d.read ∧
      specIterMean 1 c1File ["DATA", "", "0.5", "8", "256", "1.0:2.0", "3.0:4.0"] =
        some d.write) :=
  ⟨by with_unfolding_all rfl, by with_unfolding_all rfl,
    C1_loader_read_write_mean (by with_unfolding_all rfl) (by with_unfolding_all rfl)⟩

/-! ## C6: malformed content (corrected) -/

theorem loadOne_ok_not_malformed {df : CsvFile} {ds : Dataset}
    (h : loadOne df = .ok ds) : malformed df = false := by
  obtain ⟨ti, ps, ri, ci, vi, tmp, read_df, read_avg, write_df, write_avg,
    ratios, conns, vals, h1, h2, h3, h4, h5, h6, h7, h8, h9, h10, h11, h12,
    h13, hds⟩ := loadOne_ok_inv h
  rw [malformed, h1, h3, h4, h5]
  simp only [Option.isNone_some, Bool.false_or]
  rw [List.any_eq_false]
  intro r hr
  have hA : (iterIdxs df).any (fun j => badIterCell r j) = false := by
    rw [List.any_eq_false]
    intro j hj
    obtain ⟨iIdx, hiIdx⟩ := List.mem_iff_getElem?.mp hr
    obtain ⟨jIdx, hjIdx⟩ := List.mem_iff_getElem?.mp hj
    obtain ⟨colT, hcolT, hsplit⟩ := mapE_ok_get h6 hjIdx
    obtain ⟨parts, hparts, hsplitr⟩ := mapE_ok_get hsplit hiIdx
    obtain ⟨cell, hcell, hpeq⟩ := splitCell_ok hsplitr
    obtain ⟨rcol, hrcol, hparse0⟩ := mapE_ok_get h7 hcolT
    obtain ⟨q0, hq0, hp0⟩ := mapE_ok_get hparse0 hparts
    obtain ⟨cs0, hcs0, hf0⟩ := parseComp_ok hp0
    obtain ⟨wcol, hwcol, hparse1⟩ := mapE_ok_get h9 hcolT
    obtain ⟨q1, hq1, hp1⟩ := mapE_ok_get hparse1 hparts
    obtain ⟨cs1, hcs1, hf1⟩ := parseComp_ok hp1
    have hs0 : specCellComp 0 cell = some q0 := by
      rw [specCellComp, ← hpeq, hcs0]
      exact hf0
    have hs1 : specCellComp 1 cell = some q1 := by
      rw [specCellComp, ← hpeq, hcs1]
      exact hf1
    simp [badIterCell, hcell, hs0, hs1]
  have hB : badFloatCell r ri = false := by
    obtain ⟨q, hq⟩ := mapE_ok_mem h11 hr
    obtain ⟨sc, hsc, hpf⟩ := cellFloat_ok hq
    simp only [badFloatCell, hsc, hpf, Option.isNone_some]
  have hC : badIntCell r ci = false := by
    obtain ⟨z, hz⟩ := mapE_ok_mem h12 hr
    obtain ⟨sc, hsc, hpf⟩ := cellInt_ok hz
    simp only [badIntCell, hsc, hpf, Option.isNone_some]
  have hD : badIntCell r vi = false := by
    obtain ⟨z, hz⟩ := mapE_ok_mem h13 hr
    obtain ⟨sc, hsc, hpf⟩ := cellInt_ok hz
    simp only [badIntCell, hsc, hpf, Option.isNone_some]
  simp [badNumAt, hA, hB, hC, hD]

/-- A file whose only iteration cell splits on `:` into three components:
the claim calls this malformed ("does not split into exactly two parseable
components"), but the loader accepts it, using the first two components. -/
def c6ThreeCompFile : CsvFile :=
  { header := ["type", "ratio", "conn_size", "value_size", "iter1"],
    rows := [["DATA", "1.0", "8", "256", "1:2:3"]] }

/-- C6 counterexample: an input whose iteration cell `"1:2:3"` does not split
on `:` into exactly two components, yet the loader succeeds (no exit code 1)
and the program writes the image. -/
theorem C6_counterexample :
    (splitColon "1:2:3".data).length ≠ 2 ∧
    load_data_files [.present c6ThreeCompFile] =
      .ok [{ dataframe := [{ ratio := 1, conn_size := 8, value_size := 256,
                             read := 1, write := 2 }],
             param := "" }] ∧
    mainModel none (.present c6ThreeCompFile) .absent =
      .savedImage (.single [(1, [{ ratio := 1, conn_size := 8,
                                   value_size := 256, read := 1, write := 2 }])]) := by
  refine ⟨by decide, by with_unfolding_all rfl, by with_unfolding_all rfl⟩

/-- C6 (amended): for every input file with malformed content — a missing
expected column, a non-numeric field where a numeric value is required, or an
iteration cell whose first or second `:`-component is missing or fails to
parse as a float — the loader exits with code 1 (cells with more than two
components are accepted, the extra components being ignored). -/
theorem C6_amended_malformed_exits_one {df : CsvFile}
    (h : malformed df = true) :
    load_data_files [.present df] = .error 1 := by
  cases hlo : loadOne df with
  | ok ds =>
    have hfalse := loadOne_ok_not_malformed hlo
    rw [h] at hfalse
    cases hfalse
  | error e =>
    have hrs : readStage [FileArg.present df] = .ok [df] := rfl
    have hm : mapE loadOne [df] = .error e := by
      simp only [mapE, hlo]
    simp only [load_data_files, hrs, hm]

/-- A file whose iteration cell `"1.0"` has no second `:`-component. -/
def c6NoColonFile : CsvFile :=
  { header := ["type", "ratio", "conn_size", "value_size", "iter1"],
    rows := [["DATA", "1.0", "8", "256", "1.0"]] }

theorem C6_witness :
    malformed c6NoColonFile = true ∧
    load_data_files [.present c6NoColonFile] = .error 1 :=
  ⟨by with_unfolding_all rfl,
    C6_amended_malformed_exits_one (by with_unfolding_all rfl)⟩


end PlotData
